import Mathlib

/-!
Shallow embedding of the repost pipeline (`src/repost.py`): data model,
content filters, time-window selection, aggregation/deduplication, queue
building and pinned-item injection, together with theorems settling the
frozen claims about the specification.

Python dictionaries are embedded as structures whose fields already carry
the `x or default` coercions the code applies at every access site
(e.g. `(post.get("author") or {}).get("did") or ""` becomes a plain
`String` field that is `""` when the key chain is absent or empty).
Timestamp parsing (`datetime.fromisoformat`) and JSON parsing are external
library calls; they are modelled as oracle parameters
`String → Option Int` / `String → Option α` (`none` = the call raised).
-/

/-- ASCII model of Python's `\s` class (`re` whitespace): space, tab,
newline, carriage return, vertical tab, form feed. -/
def isPySpace (c : Char) : Bool :=
  c = ' ' || c = '\t' || c = '\n' || c = '\r' || c = '\x0b' || c = '\x0c'

/-- ASCII model of Python's `\w` class: letters, digits, underscore. -/
def isPyWordChar (c : Char) : Bool :=
  c.isAlphanum || c = '_'

/-- ASCII model of Python's `str.lower()`. -/
def pyLower (s : String) : String :=
  String.mk (s.toList.map Char.toLower)

/-- ASCII model of Python's `str.strip()`: drop whitespace at both ends. -/
def pyStrip (s : String) : String :=
  String.mk (((s.toList.dropWhile isPySpace).reverse.dropWhile isPySpace).reverse)

/-- `xs` is a prefix of `ys` (character lists). -/
def isPrefixList : List Char → List Char → Bool
  | [], _ => true
  | _ :: _, [] => false
  | a :: as, b :: bs => a = b && isPrefixList as bs

/-- `needle` occurs as a contiguous sublist of `hay`. -/
def containsList (needle : List Char) : List Char → Bool
  | [] => needle.isEmpty
  | c :: rest => isPrefixList needle (c :: rest) || containsList needle rest

/-- Model of Python's `needle in hay` on strings (substring test). -/
def strContains (hay needle : String) : Bool :=
  containsList needle.toList hay.toList

/-- A rich-text facet feature (`record.facets[].features[]`): the `$type`
string (`feat.get("$type") or ""`) and the tag (`feat.get("tag") or ""`). -/
structure Feature where
  ftype : String
  tag : String
deriving DecidableEq

/-- A rich-text facet: its feature list (`f.get("features") or []`). -/
structure Facet where
  features : List Feature
deriving DecidableEq

/-- The embed descriptor of a post (`post["embed"]` when truthy).
`etype` is `embed.get("$type") or ""`; `images` is
`embed.get("images") or []` (only the count matters, each entry is kept as
an opaque string); `mediaType`/`mediaImages` flatten
`media = embed.get("media") or {}` followed by `media.get("$type") or ""`
and `media.get("images") or []`. -/
structure Embed where
  etype : String
  images : List String
  mediaType : String
  mediaImages : List String
deriving DecidableEq

/-- A content item (Bluesky post view dict). Fields carry the `or`-defaults
the code applies: `uri`/`cid` are `post.get("uri") or ""` etc.;
`authorDid`/`authorHandle` flatten `(post.get("author") or {}).get(k) or ""`;
the three timestamp sources stay `Option String` because the code chains
them by truthiness; `reply` is `bool(record.get("reply"))`; `text` is
`record.get("text") or ""`; `facets` is `record.get("facets") or []`;
`embed` is `none` when `post.get("embed")` is falsy. -/
structure Post where
  uri : String
  cid : String
  authorDid : String
  authorHandle : String
  indexedAt : Option String
  recordCreatedAt : Option String
  createdAt : Option String
  reply : Bool
  text : String
  facets : List Facet
  embed : Option Embed
deriving DecidableEq

/-- Provenance context of a feed/list item. `reason` is `none` when
`feed_item.get("reason")` is falsy, else `some` of
`reason.get("$type") or ""`. -/
structure Ctx where
  reason : Option String
deriving DecidableEq

/-- Python `a or b` on optional strings: `a` unless it is `None` or `""`. -/
def orStr : Option String → Option String → Option String
  | some s, y => if s = "" then y else some s
  | none, y => y

/-- The truthy chain
`post.get("indexedAt") or post.get("record", {}).get("createdAt") or post.get("createdAt")`
from `parse_created_at`. -/
def rawCreatedStr (post : Post) : Option String :=
  orStr post.indexedAt (orStr post.recordCreatedAt post.createdAt)

/-- The timestamp of a post as actually resolved by `parse_created_at`
before the `0.0` sentinel is applied: `none` when the source string is
missing/empty or the ISO parse (oracle `P`) fails. -/
def resolvedTs (P : String → Option Int) (post : Post) : Option Int :=
  match rawCreatedStr post with
  | none => none
  | some s => if s = "" then none else P s

/-- `parse_created_at` (src/repost.py:70-77): first truthy of the three
timestamp fields, parsed via the ISO oracle `P`; `0` on a missing/empty
string or parse failure (the Python `0.0` sentinel). -/
def parse_created_at (P : String → Option Int) (post : Post) : Int :=
  (resolvedTs P post).getD 0

/-- `within_window` (src/repost.py:80-84): reject when the parsed
timestamp is `≤ 0` (the sentinel range), else closed-interval test. -/
def within_window (P : String → Option Int) (post : Post)
    (start_ts end_ts : Int) : Bool :=
  let created := parse_created_at P post
  if created ≤ 0 then false
  else decide (start_ts ≤ created ∧ created ≤ end_ts)

/-- `is_blocked` (src/repost.py:253-257): author did or handle,
lower-cased, is in the blocklist (a set of already lower-cased keys,
modelled as a list). -/
def is_blocked (post : Post) (blocked : List String) : Bool :=
  decide (pyLower post.authorDid ∈ blocked) ||
  decide (pyLower post.authorHandle ∈ blocked)

/-- `is_reply` (src/repost.py:268-270): `bool(record.get("reply"))`. -/
def is_reply (post : Post) : Bool :=
  post.reply

/-- `embed_is_media_only` (src/repost.py:273-313): accept only image-set
(non-empty), video, or record-with-media whose media part is a non-empty
image-set or a video; reject external link cards, plain quotes, and posts
with no embed.  The `$type` tests are substring tests, as in the source. -/
def embed_is_media_only (post : Post) : Bool :=
  match post.embed with
  | none => false
  | some embed =>
    let et := embed.etype
    if strContains et "app.bsky.embed.images" then
      decide (0 < embed.images.length)
    else if strContains et "app.bsky.embed.video" then
      true
    else if strContains et "app.bsky.embed.external" then
      false
    else if strContains et "app.bsky.embed.record" &&
            !strContains et "recordWithMedia" then
      false
    else if strContains et "app.bsky.embed.recordWithMedia" then
      let mt := embed.mediaType
      if strContains mt "app.bsky.embed.images" then
        decide (0 < embed.mediaImages.length)
      else if strContains mt "app.bsky.embed.video" then
        true
      else
        false
    else
      false

/-- `is_repost_reason` (src/repost.py:316-325): a truthy `reason` whose
`$type` contains `app.bsky.feed.defs#reasonRepost`. -/
def is_repost_reason (ctx : Ctx) : Bool :=
  match ctx.reason with
  | none => false
  | some rt => strContains rt "app.bsky.feed.defs#reasonRepost"

/-- One attempted match of the pattern `#milf\b` (case-insensitive) at the
head of `cs`: the next five characters spell `#milf` modulo case and the
following character, if any, is not a word character. -/
def milfAt : List Char → Bool
  | '#' :: c1 :: c2 :: c3 :: c4 :: rest =>
    c1.toLower = 'm' && c2.toLower = 'i' && c3.toLower = 'l' &&
    c4.toLower = 'f' &&
    (match rest with
     | [] => true
     | d :: _ => !isPyWordChar d)
  | _ => false

/-- The `(?:^|\s)` part of the pattern: at the start of the string or just
after a whitespace character. -/
def prevOk : Option Char → Bool
  | none => true
  | some c => isPySpace c

/-- Scan for a match of `(?i)(?:^|\s)#milf\b` anywhere in the character
list, tracking the previous character. -/
def hasMilfTokenAux : Option Char → List Char → Bool
  | _, [] => false
  | prev, c :: rest =>
    (prevOk prev && milfAt (c :: rest)) || hasMilfTokenAux (some c) rest

/-- Model of `re.search(r"(?i)(?:^|\s)#milf\b", text)` from
`has_required_milf_tag`. -/
def hasMilfToken (s : String) : Bool :=
  hasMilfTokenAux none s.toList

/-- `has_required_milf_tag` (src/repost.py:328-348): the `#milf` token in
the text body, or a `facet#tag` feature whose lower-cased tag equals
`milf`. -/
def has_required_milf_tag (post : Post) : Bool :=
  hasMilfToken post.text ||
  post.facets.any (fun f =>
    f.features.any (fun feat =>
      strContains feat.ftype "app.bsky.richtext.facet#tag" &&
      pyLower feat.tag = "milf"))

/-- `passes_content_filters` (src/repost.py:351-368): reject reshares
(context present and marked repost), replies, context-bearing items
without the required tag, and non-media embeds. -/
def passes_content_filters (post : Post) (ctx : Option Ctx) : Bool :=
  if (match ctx with | some c => is_repost_reason c | none => false) then
    false
  else if is_reply post then
    false
  else if ctx.isSome && !has_required_milf_tag post then
    false
  else if !embed_is_media_only post then
    false
  else
    true

/-- `get_author_did` (src/repost.py:374-376). -/
def get_author_did (post : Post) : String :=
  post.authorDid

/-- `get_author_handle` (src/repost.py:379-381). -/
def get_author_handle (post : Post) : String :=
  post.authorHandle

/-- `get_uri` (src/repost.py:384-385). -/
def get_uri (post : Post) : String :=
  post.uri

/-- `get_cid` (src/repost.py:388-389). -/
def get_cid (post : Post) : String :=
  post.cid

/-- `load_json` (src/repost.py:18-29).  The filesystem is the oracle
`fs : String → Option String` (`none` = file missing, or `open`/`read`
raised); JSON parsing is the oracle `parse` (`none` = `json.loads`
raised).  Every exception path of the source returns `default`. -/
def load_json {α : Type} (fs : String → Option String)
    (parse : String → Option α) (path : String) (default : α) : α :=
  match fs path with
  | none => default
  | some content =>
    let c := pyStrip content
    if c = "" then default
    else
      match parse c with
      | none => default
      | some v => v

/-- Insertion into a Python `dict` modelled as an ordered association
list: an existing key keeps its position and gets the new value, a new
key is appended (insertion order, last write wins). -/
def dictInsert (m : List (String × Post)) (k : String) (v : Post) :
    List (String × Post) :=
  match m with
  | [] => [(k, v)]
  | (k', v') :: rest =>
    if k' = k then (k', v) :: rest else (k', v') :: dictInsert rest k v

/-- The filter-and-dedup loop of `main` (src/repost.py:581-602): for each
collected `(post, context)` pair, skip on missing uri/cid, out-of-window
timestamp, already-processed uri, blocklisted author, or content-filter
failure; survivors are written into the uri-keyed dict. -/
def aggGo (P : String → Option Int) (reposted blocked : List String)
    (start_ts end_ts : Int) :
    List (Post × Option Ctx) → List (String × Post) → List (String × Post)
  | [], m => m
  | (p, ctx) :: rest, m =>
    if get_uri p = "" ∨ get_cid p = "" then
      aggGo P reposted blocked start_ts end_ts rest m
    else if ¬ within_window P p start_ts end_ts then
      aggGo P reposted blocked start_ts end_ts rest m
    else if get_uri p ∈ reposted then
      aggGo P reposted blocked start_ts end_ts rest m
    else if blocked ≠ [] ∧ is_blocked p blocked then
      aggGo P reposted blocked start_ts end_ts rest m
    else if ¬ passes_content_filters p ctx then
      aggGo P reposted blocked start_ts end_ts rest m
    else
      aggGo P reposted blocked start_ts end_ts rest (dictInsert m (get_uri p) p)

/-- The Aggregator/Deduplicator: the `by_uri` dict built from the
collected items (src/repost.py:581-602), starting from the empty dict. -/
def aggregate (P : String → Option Int)
    (collected : List (Post × Option Ctx)) (reposted blocked : List String)
    (start_ts end_ts : Int) : List (String × Post) :=
  aggGo P reposted blocked start_ts end_ts collected []

/-- Insert `p` into a list already sorted by descending timestamp, after
every element whose timestamp is `≥` its own (preserving stability). -/
def insertByTsDesc (P : String → Option Int) (p : Post) :
    List Post → List Post
  | [] => [p]
  | q :: rest =>
    if parse_created_at P q < parse_created_at P p then p :: q :: rest
    else q :: insertByTsDesc P p rest

/-- `candidates.sort(key=parse_created_at, reverse=True)`
(src/repost.py:605): Python's sort is stable, and with `reverse=True`
equal keys keep their original order; modelled as a stable insertion sort
by descending timestamp. -/
def sortByTsDesc (P : String → Option Int) (l : List Post) : List Post :=
  l.foldl (fun acc p => insertByTsDesc P p acc) []

/-- One Python-`defaultdict(int)` increment. -/
def bump (f : String → Nat) (k : String) : String → Nat :=
  fun x => if x = k then f k + 1 else f x

/-- The per-author-cap loop of `main` (src/repost.py:607-620): stop once
`take_limit` items are kept; skip an item whose (truthy) author already
reached `max_per_author`; count only truthy authors. -/
def capGo : List Post → (String → Nat) → List Post → Nat → Nat → List Post
  | [], _, limited, _, _ => limited
  | p :: rest, author_count, limited, take_limit, max_per_author =>
    if take_limit ≤ limited.length then limited
    else
      if get_author_did p ≠ "" ∧
          max_per_author ≤ author_count (get_author_did p) then
        capGo rest author_count limited take_limit max_per_author
      else
        capGo rest
          (if get_author_did p ≠ "" then bump author_count (get_author_did p)
           else author_count)
          (limited ++ [p]) take_limit max_per_author

/-- The `limited` list of `main` (src/repost.py:607-620), starting from a
fresh `defaultdict(int)` and an empty queue. -/
def enforceAuthorCap (candidates : List Post)
    (max_per_author take_limit : Nat) : List Post :=
  capGo candidates (fun _ => 0) [] take_limit max_per_author

/-- The single-post validation of `main` (src/repost.py:631-638): drop a
fetched pinned post whose author is blocklisted (only checked when the
blocklist is non-empty) or which fails the content filters with no
provenance context. -/
def validateSingle (single : Option Post) (blocked : List String) :
    Option Post :=
  match single with
  | none => none
  | some p =>
    if blocked ≠ [] ∧ is_blocked p blocked then none
    else if ¬ passes_content_filters p none then none
    else some p

/-- The injection step of `main` (src/repost.py:640-645): `idx = 2`,
clamped down to the queue length, splice the single post in, truncate to
`max_total`. -/
def injectSingle (q : List Post) (single : Post) (max_total : Nat) :
    List Post :=
  let idx := if q.length < 2 then q.length else 2
  (q.take idx ++ [single] ++ q.drop idx).take max_total

/-- The whole selection pipeline of `main` (src/repost.py:581-645):
filter + dedup, newest-first sort, per-author capping with
`take_limit = max(0, max_total - 1)` (Nat subtraction is the `max(0, ·)`),
then validation and injection of the fetched pinned post.
`singleFetched` is the result of `fetch_single_post` (`none` both when no
pinned reference is configured and when the fetch found nothing). -/
def buildFinalQueue (P : String → Option Int)
    (collected : List (Post × Option Ctx)) (reposted blocked : List String)
    (start_ts end_ts : Int) (max_total max_per_author : Nat)
    (singleFetched : Option Post) : List Post :=
  let by_uri := aggregate P collected reposted blocked start_ts end_ts
  let candidates := sortByTsDesc P (by_uri.map Prod.snd)
  let take_limit := max_total - 1
  let limited := enforceAuthorCap candidates max_per_author take_limit
  match validateSingle singleFetched blocked with
  | none => limited
  | some single_post =>
    if get_uri single_post ≠ "" ∧ get_cid single_post ≠ "" then
      injectSingle limited single_post max_total
    else
      limited

/-- The organic-candidate cap as the spec's words state it (used only to
compare the claim against the code): `total_cap - 1` when a pinned
reference is configured, `total_cap` otherwise. -/
def specOrganicCap (pinnedConfigured : Bool) (total_cap : Nat) : Nat :=
  if pinnedConfigured then total_cap - 1 else total_cap

/-- The five embed `$type` discriminators of the media-only rule. -/
inductive EmbedKind
  | images
  | video
  | external
  | record
  | recordWithMedia
deriving DecidableEq

/-- The canonical `$type` string of each embed kind as it appears in post
views returned by the API. -/
def viewType : EmbedKind → String
  | EmbedKind.images => "app.bsky.embed.images#view"
  | EmbedKind.video => "app.bsky.embed.video#view"
  | EmbedKind.external => "app.bsky.embed.external#view"
  | EmbedKind.record => "app.bsky.embed.record#view"
  | EmbedKind.recordWithMedia => "app.bsky.embed.recordWithMedia#view"

/-- An embed is canonically typed: its `$type` (and, when present, its
media part's `$type`) is one of the five view strings. -/
def canonicalEmbed (e : Embed) : Prop :=
  (∃ k, e.etype = viewType k) ∧
  (e.mediaType = "" ∨ ∃ k, e.mediaType = viewType k)

/-- The media-only rule as the spec's words state it (used only to compare
the claim against the code): non-empty image-set, video, or quote-with-media
whose inner media part is a non-empty image-set or a video. -/
def mediaOnlySpec (e : Embed) : Prop :=
  (e.etype = viewType EmbedKind.images ∧ e.images ≠ []) ∨
  e.etype = viewType EmbedKind.video ∨
  (e.etype = viewType EmbedKind.recordWithMedia ∧
    ((e.mediaType = viewType EmbedKind.images ∧ e.mediaImages ≠ []) ∨
     e.mediaType = viewType EmbedKind.video))

/-- All the aggregator's per-item checks except the already-processed
test: usable uri/cid, in-window timestamp, not blocklisted, passes the
content filters. -/
def eligibleItem (P : String → Option Int) (p : Post) (ctx : Option Ctx)
    (blocked : List String) (s e : Int) : Prop :=
  ¬(get_uri p = "" ∨ get_cid p = "") ∧
  within_window P p s e = true ∧
  ¬(blocked ≠ [] ∧ is_blocked p blocked) ∧
  passes_content_filters p ctx = true

/-- Concrete ISO-parse oracle for the closed test instances: three known
timestamp strings, everything else unparseable. -/
def tsOracle : String → Option Int := fun s =>
  if s = "t1" then some 10
  else if s = "t2" then some 20
  else if s = "1970-01-01T00:00:00+00:00" then some 0
  else none

/-- A non-empty image-set embed. -/
def imagesEmbed : Embed :=
  ⟨"app.bsky.embed.images#view", ["img"], "", []⟩

/-- Ordinary media post by author a (timestamp `t1` = 10). -/
def postA : Post :=
  ⟨"at://a", "cidA", "did:plc:a", "a.test", some "t1", none, none,
   false, "", [], some imagesEmbed⟩

/-- Ordinary media post by author b (timestamp `t2` = 20). -/
def postB : Post :=
  ⟨"at://b", "cidB", "did:plc:b", "b.test", some "t2", none, none,
   false, "", [], some imagesEmbed⟩

/-- Media post whose author dict carries no did (timestamp 10). -/
def postN1 : Post :=
  ⟨"at://n1", "cidN1", "", "", some "t1", none, none,
   false, "", [], some imagesEmbed⟩

/-- Second media post with no author did (timestamp 20). -/
def postN2 : Post :=
  ⟨"at://n2", "cidN2", "", "", some "t2", none, none,
   false, "", [], some imagesEmbed⟩

/-- Media post whose createdAt parses to exactly the epoch (0). -/
def postEpoch : Post :=
  ⟨"at://e", "cidE", "did:plc:e", "e.test", none, none,
   some "1970-01-01T00:00:00+00:00", false, "", [], some imagesEmbed⟩

/-- Feed/list provenance context with no reshare reason. -/
def ctxPlain : Ctx := ⟨none⟩

/-- Media post carrying the required tag in its text body. -/
def postTagged : Post :=
  ⟨"at://t", "cidT", "did:plc:t", "t.test", some "t1", none, none,
   false, "#MILF pic", [], some imagesEmbed⟩

/-- Filesystem oracle: file missing. -/
def fsMissing : String → Option String := fun _ => none

/-- Filesystem oracle: file holds only whitespace. -/
def fsBlank : String → Option String := fun _ => some "  "

/-- Filesystem oracle: file holds unparseable content. -/
def fsBad : String → Option String := fun _ => some "oops"

/-- JSON-parse oracle that always fails. -/
def parseNone : String → Option Nat := fun _ => none

/-- The capping loop never grows the queue past `take_limit` (starting
from any queue already within the limit). -/
theorem capGo_length_le (l : List Post) :
    ∀ counts acc lim cap, acc.length ≤ lim →
      (capGo l counts acc lim cap).length ≤ lim := by
  induction l with
  | nil =>
    intro counts acc lim cap h
    simpa [capGo] using h
  | cons p rest ih =>
    intro counts acc lim cap h
    rw [capGo]
    split
    · exact h
    · rename_i hfull
      split
      · exact ih _ _ _ _ h
      · refine ih _ _ _ _ ?_
        have : acc.length < lim := Nat.lt_of_not_le hfull
        simpa using this

/-- On a candidate list whose items all lack an author did, the capping
loop keeps everything up to the remaining room below `take_limit`. -/
theorem capGo_all_empty (l : List Post) :
    ∀ counts acc lim cap, (∀ p ∈ l, get_author_did p = "") →
      capGo l counts acc lim cap = acc ++ l.take (lim - acc.length) := by
  induction l with
  | nil =>
    intro counts acc lim cap _
    simp [capGo]
  | cons p rest ih =>
    intro counts acc lim cap h
    have hp : get_author_did p = "" := h p (List.mem_cons_self p rest)
    have hrest : ∀ q ∈ rest, get_author_did q = "" :=
      fun q hq => h q (List.mem_cons_of_mem p hq)
    rw [capGo]
    split
    · rename_i hle
      rw [Nat.sub_eq_zero_of_le hle]
      simp
    · rename_i hfull
      rw [if_neg (by simp [hp])]
      rw [ih _ _ _ _ hrest]
      have hlt : acc.length < lim := Nat.lt_of_not_le hfull
      have harith : lim - acc.length = (lim - (acc.length + 1)) + 1 := by omega
      rw [harith]
      simp [List.take_succ_cons]

/-- Loop invariant of the per-author cap: for a fixed non-empty author
`a`, the running count equals the number of kept items by `a`, and that
number never exceeds `max_per_author`. -/
theorem capGo_countP_le (a : String) (ha : a ≠ "") (cap : Nat) (l : List Post) :
    ∀ counts acc lim,
      counts a = acc.countP (fun p => decide (get_author_did p = a)) →
      acc.countP (fun p => decide (get_author_did p = a)) ≤ cap →
      (capGo l counts acc lim cap).countP
        (fun p => decide (get_author_did p = a)) ≤ cap := by
  induction l with
  | nil =>
    intro counts acc lim _ hle
    simpa [capGo] using hle
  | cons p rest ih =>
    intro counts acc lim hinv hle
    rw [capGo]
    split
    · exact hle
    · split
      · exact ih _ _ _ hinv hle
      · rename_i hkeep
        by_cases hpa : get_author_did p = a
        · have hne : get_author_did p ≠ "" := by rw [hpa]; exact ha
          have hlt : counts (get_author_did p) < cap := by
            by_contra hcontra
            exact hkeep ⟨hne, Nat.le_of_not_lt hcontra⟩
          have hcount :
              (acc ++ [p]).countP (fun q => decide (get_author_did q = a)) =
                acc.countP (fun q => decide (get_author_did q = a)) + 1 := by
            simp [List.countP_append, List.countP_cons, hpa]
          have hlt' : counts a < cap := by rw [← hpa]; exact hlt
          refine ih _ _ _ ?_ ?_
          · rw [if_pos hne, hcount, bump, if_pos hpa.symm, hpa, hinv]
          · rw [hcount, ← hinv]
            exact hlt'
        · have hcount :
              (acc ++ [p]).countP (fun q => decide (get_author_did q = a)) =
                acc.countP (fun q => decide (get_author_did q = a)) := by
            simp [List.countP_append, List.countP_cons, hpa]
          refine ih _ _ _ ?_ (by rw [hcount]; exact hle)
          · rw [hcount, ← hinv]
            split
            · rw [bump, if_neg (by intro hh; exact hpa hh.symm)]
            · rfl

/-- Key membership survives a dict insertion. -/
theorem dictInsert_keys_mem (u : String) (v : Post) (k : String) :
    ∀ m : List (String × Post), k ∈ m.map Prod.fst →
      k ∈ (dictInsert m u v).map Prod.fst := by
  intro m
  induction m with
  | nil => simp
  | cons hd tl ih =>
    obtain ⟨k', v'⟩ := hd
    intro h
    have h' : k = k' ∨ k ∈ tl.map Prod.fst := by simpa using h
    rw [dictInsert]
    split
    · simpa using h'
    · rcases h' with h1 | h2
      · simp [h1]
      · simpa using Or.inr (ih h2)

/-- The inserted key is a key of the result. -/
theorem dictInsert_self_mem (u : String) (v : Post) :
    ∀ m : List (String × Post), u ∈ (dictInsert m u v).map Prod.fst := by
  intro m
  induction m with
  | nil => simp [dictInsert]
  | cons hd tl ih =>
    obtain ⟨k', v'⟩ := hd
    rw [dictInsert]
    split
    · rename_i heq
      simp [heq]
    · simpa using Or.inr ih

/-- Keys already present stay present through the whole aggregation
loop. -/
theorem aggGo_keys_mono (P : String → Option Int) (r b : List String)
    (s e : Int) (l : List (Post × Option Ctx)) :
    ∀ m k, k ∈ m.map Prod.fst → k ∈ (aggGo P r b s e l m).map Prod.fst := by
  induction l with
  | nil =>
    intro m k h
    simpa [aggGo] using h
  | cons hd tl ih =>
    obtain ⟨p, ctx⟩ := hd
    intro m k h
    rw [aggGo]
    split
    · exact ih m k h
    · split
      · exact ih m k h
      · split
        · exact ih m k h
        · split
          · exact ih m k h
          · split
            · exact ih m k h
            · exact ih _ k (dictInsert_keys_mem _ _ _ m h)

/-- An eligible, not-yet-processed item of the input ends up among the
keys of the aggregated dict. -/
theorem aggGo_mem_keys (P : String → Option Int) (r b : List String)
    (s e : Int) (l : List (Post × Option Ctx)) :
    ∀ m p ctx, (p, ctx) ∈ l → eligibleItem P p ctx b s e →
      get_uri p ∉ r → get_uri p ∈ (aggGo P r b s e l m).map Prod.fst := by
  induction l with
  | nil => simp
  | cons hd tl ih =>
    obtain ⟨q, cq⟩ := hd
    intro m p ctx hmem helig hnr
    rw [aggGo]
    rcases List.mem_cons.mp hmem with heq | htl
    · have hpq : q = p := (Prod.mk.injEq _ _ _ _ ▸ heq.symm).1
      have hcq : cq = ctx := (Prod.mk.injEq _ _ _ _ ▸ heq.symm).2
      subst hpq
      subst hcq
      rw [if_neg helig.1, if_neg (by simp [helig.2.1]), if_neg hnr,
          if_neg helig.2.2.1, if_neg (by simp [helig.2.2.2])]
      exact aggGo_keys_mono P r b s e tl _ _ (dictInsert_self_mem _ _ m)
    · split
      · exact ih m p ctx htl helig hnr
      · split
        · exact ih m p ctx htl helig hnr
        · split
          · exact ih m p ctx htl helig hnr
          · split
            · exact ih m p ctx htl helig hnr
            · split
              · exact ih m p ctx htl helig hnr
              · exact ih _ p ctx htl helig hnr

/-- If every eligible item of the input is already processed, the
aggregation loop keeps the dict empty. -/
theorem aggGo_all_processed (P : String → Option Int) (r₂ b : List String)
    (s e : Int) (l : List (Post × Option Ctx))
    (h : ∀ p ctx, (p, ctx) ∈ l → eligibleItem P p ctx b s e →
      get_uri p ∈ r₂) :
    aggGo P r₂ b s e l [] = [] := by
  induction l with
  | nil => rfl
  | cons hd tl ih =>
    obtain ⟨p, ctx⟩ := hd
    have htl : ∀ q cq, (q, cq) ∈ tl → eligibleItem P q cq b s e →
        get_uri q ∈ r₂ :=
      fun q cq hm => h q cq (List.mem_cons_of_mem _ hm)
    rw [aggGo]
    by_cases h1 : get_uri p = "" ∨ get_cid p = ""
    · rw [if_pos h1]
      exact ih htl
    · rw [if_neg h1]
      by_cases h2 : within_window P p s e = true
      · rw [if_neg (by simp [h2])]
        by_cases h3 : get_uri p ∈ r₂
        · rw [if_pos h3]
          exact ih htl
        · rw [if_neg h3]
          by_cases h4 : b ≠ [] ∧ is_blocked p b
          · rw [if_pos h4]
            exact ih htl
          · rw [if_neg h4]
            by_cases h5 : passes_content_filters p ctx = true
            · exact absurd
                (h p ctx (List.mem_cons_self _ _) ⟨h1, h2, h4, h5⟩) h3
            · rw [if_pos (by simpa using h5)]
              exact ih htl
      · rw [if_pos (by simpa using h2)]
        exact ih htl

/-- C8: loading the persisted config or run-state document from a
missing, empty, or unparseable file returns the supplied default and
never raises: every exception path of `load_json` is a `default` return,
and the result is always either the default or the parsed file content. -/
theorem load_json_total_fallback {α : Type} (fs : String → Option String)
    (parse : String → Option α) (path : String) (default : α) :
    (fs path = none → load_json fs parse path default = default) ∧
    (∀ c, fs path = some c → pyStrip c = "" →
      load_json fs parse path default = default) ∧
    (∀ c, fs path = some c → parse (pyStrip c) = none →
      load_json fs parse path default = default) ∧
    (load_json fs parse path default = default ∨
      ∃ c v, fs path = some c ∧ parse (pyStrip c) = some v ∧
        load_json fs parse path default = v) := by
  refine ⟨?_, ?_, ?_, ?_⟩
  · intro h
    simp [load_json, h]
  · intro c hc hs
    simp [load_json, hc, hs]
  · intro c hc hp
    by_cases hs : pyStrip c = ""
    · simp [load_json, hc, hs]
    · simp [load_json, hc, hs, hp]
  · cases hc : fs path with
    | none => exact Or.inl (by simp [load_json, hc])
    | some c =>
      by_cases hs : pyStrip c = ""
      · exact Or.inl (by simp [load_json, hc, hs])
      · cases hp : parse (pyStrip c) with
        | none => exact Or.inl (by simp [load_json, hc, hs, hp])
        | some v =>
          exact Or.inr ⟨c, v, rfl, hp, by simp [load_json, hc, hs, hp]⟩

/-- Closed instances of C8: missing file, whitespace-only file, and
unparseable file all yield the default. -/
theorem load_json_total_fallback_witness :
    load_json fsMissing parseNone "state.json" 7 = 7 ∧
    load_json fsBlank parseNone "state.json" 7 = 7 ∧
    load_json fsBad parseNone "state.json" 7 = 7 :=
  ⟨(load_json_total_fallback fsMissing parseNone "state.json" 7).1 rfl,
   (load_json_total_fallback fsBlank parseNone "state.json" 7).2.1
     "  " rfl (by decide),
   (load_json_total_fallback fsBad parseNone "state.json" 7).2.2.1
     "oops" rfl rfl⟩

/-- C9: candidates whose author identifier resolves to the empty string
bypass the per-author cap entirely — the capping loop keeps all of them,
bounded only by the queue-size limit, even when `max_per_author` is 0. -/
theorem empty_author_bypasses_cap (candidates : List Post)
    (max_per_author take_limit : Nat)
    (h : ∀ p ∈ candidates, get_author_did p = "") :
    enforceAuthorCap candidates max_per_author take_limit =
      candidates.take take_limit := by
  unfold enforceAuthorCap
  rw [capGo_all_empty candidates _ _ _ _ h]
  simp

/-- Closed instance of C9: with `max_per_author = 0`, three posts with no
author did are all kept up to the queue limit. -/
theorem empty_author_bypasses_cap_witness :
    enforceAuthorCap [postN1, postN2, postN1] 0 2 =
      [postN1, postN2, postN1].take 2 :=
  empty_author_bypasses_cap [postN1, postN2, postN1] 0 2 (by decide)

/-- C4 (amended): an item is admitted by `within_window` exactly when its
timestamp resolves to a strictly positive `t` with `start ≤ t ≤ end`;
in particular every item with no resolvable timestamp is rejected.  (The
claim as frozen omits the `0 < t` condition, see the counterexample.) -/
theorem window_closed_on_resolved (P : String → Option Int) (post : Post)
    (start_ts end_ts : Int) :
    within_window P post start_ts end_ts = true ↔
      ∃ t, resolvedTs P post = some t ∧ 0 < t ∧
        start_ts ≤ t ∧ t ≤ end_ts := by
  unfold within_window parse_created_at
  cases h : resolvedTs P post with
  | none => simp [h]
  | some t =>
    by_cases ht : t ≤ 0
    · simp only [h, Option.getD_some, if_pos ht]
      constructor
      · intro hfalse
        exact absurd hfalse (by simp)
      · rintro ⟨t', ht', h0, _, _⟩
        rw [Option.some.injEq] at ht'
        omega
    · simp only [h, Option.getD_some, if_neg ht]
      constructor
      · intro hw
        have hw' := of_decide_eq_true hw
        exact ⟨t, rfl, by omega, hw'.1, hw'.2⟩
      · rintro ⟨t', ht', _, hst, hte⟩
        rw [Option.some.injEq] at ht'
        subst ht'
        exact decide_eq_true ⟨hst, hte⟩

/-- C4 counterexample: a post whose `createdAt` genuinely resolves (to
the epoch, timestamp 0) and lies inside the closed window `[-5, 5]` is
nevertheless rejected, because `within_window` treats every parsed value
`≤ 0` as the failure sentinel.  So "admitted exactly when
`start ≤ t ≤ end`" is false as stated. -/
theorem window_epoch_cex :
    resolvedTs tsOracle postEpoch = some 0 ∧
    ((-5 : Int) ≤ 0 ∧ (0 : Int) ≤ 5) ∧
    within_window tsOracle postEpoch (-5) 5 = false := by
  decide

/-- C10: the selection pipeline is deterministic — two runs on
componentwise-identical inputs (parse oracle, collected item/context
pairs, processed set, blocklist, window bounds, caps, fetched pinned
post) produce identical final queues. -/
theorem pipeline_deterministic (P₁ P₂ : String → Option Int)
    (c₁ c₂ : List (Post × Option Ctx)) (r₁ r₂ b₁ b₂ : List String)
    (s₁ s₂ e₁ e₂ : Int) (m₁ m₂ a₁ a₂ : Nat) (sp₁ sp₂ : Option Post)
    (hP : P₁ = P₂) (hc : c₁ = c₂) (hr : r₁ = r₂) (hb : b₁ = b₂)
    (hs : s₁ = s₂) (he : e₁ = e₂) (hm : m₁ = m₂) (ha : a₁ = a₂)
    (hsp : sp₁ = sp₂) :
    buildFinalQueue P₁ c₁ r₁ b₁ s₁ e₁ m₁ a₁ sp₁ =
      buildFinalQueue P₂ c₂ r₂ b₂ s₂ e₂ m₂ a₂ sp₂ := by
  subst hP hc hr hb hs he hm ha hsp
  rfl

/-- Closed instance of C10 at a concrete input bundle. -/
theorem pipeline_deterministic_witness :
    buildFinalQueue tsOracle [(postA, none)] [] [] 0 100 10 3 none =
      buildFinalQueue tsOracle [(postA, none)] [] [] 0 100 10 3 none :=
  pipeline_deterministic tsOracle tsOracle [(postA, none)] [(postA, none)]
    [] [] [] [] 0 0 100 100 10 10 3 3 none none
    rfl rfl rfl rfl rfl rfl rfl rfl rfl

/-- C1 (amended): the Queue Builder reserves one slot unconditionally —
the cap on organic candidates is `max(0, total_cap - 1)` whether or not a
pinned reference is configured.  When the pinned reference is absent or
resolves to a not-found item (`singleFetched = none`), the final queue is
exactly the organically capped list, of length at most `total_cap - 1`
(so there IS a permanently reserved slot, contrary to the frozen claim's
"exactly total_cap when no pinned reference is configured"). -/
theorem reserved_slot_unconditional (P : String → Option Int)
    (collected : List (Post × Option Ctx)) (reposted blocked : List String)
    (start_ts end_ts : Int) (max_total max_per_author : Nat) :
    buildFinalQueue P collected reposted blocked start_ts end_ts
        max_total max_per_author none =
      enforceAuthorCap
        (sortByTsDesc P
          ((aggregate P collected reposted blocked start_ts end_ts).map
            Prod.snd))
        max_per_author (max_total - 1) ∧
    (buildFinalQueue P collected reposted blocked start_ts end_ts
        max_total max_per_author none).length ≤ max_total - 1 := by
  constructor
  · rfl
  · show (enforceAuthorCap _ _ _).length ≤ max_total - 1
    exact capGo_length_le _ _ _ _ _ (Nat.zero_le _)

/-- C1 counterexample: `total_cap = 2`, no pinned reference configured,
two eligible organic candidates.  The frozen claim says the organic cap
is exactly `total_cap` (here 2) when no pinned reference is configured,
so the queue should hold both candidates; the code's unconditional
`take_limit = max(0, max_total - 1)` keeps only one. -/
theorem no_pinned_cap_cex :
    (buildFinalQueue tsOracle [(postA, none), (postB, none)]
        [] [] 0 100 2 3 none).length = 1 ∧
    specOrganicCap false 2 = 2 ∧
    (buildFinalQueue tsOracle [(postA, none), (postB, none)]
        [] [] 0 100 2 3 none).length ≠ min (specOrganicCap false 2) 2 := by
  decide

/-- C2: the validated pinned post is spliced in at index 2 when the
organic queue already has at least 2 items and appended at the end
otherwise; the queue is then truncated to `total_cap`, and (also at the
whole-pipeline level, for any fetched pinned post) the final queue length
never exceeds `total_cap`. -/
theorem single_injected_at_two (q : List Post) (sp : Post) (cap : Nat) :
    (2 ≤ q.length →
      injectSingle q sp cap = (q.take 2 ++ sp :: q.drop 2).take cap) ∧
    (q.length < 2 → injectSingle q sp cap = (q ++ [sp]).take cap) ∧
    (injectSingle q sp cap).length ≤ cap ∧
    (2 ≤ q.length → 3 ≤ cap → (injectSingle q sp cap)[2]? = some sp) ∧
    (∀ P collected reposted blocked start_ts end_ts max_per_author single,
      (buildFinalQueue P collected reposted blocked start_ts end_ts
          cap max_per_author single).length ≤ cap) := by
  have hlen : ∀ (l : List Post), (l.take cap).length ≤ cap := by
    intro l
    simp [List.length_take]
  refine ⟨?_, ?_, ?_, ?_, ?_⟩
  · intro h2
    have : ¬ q.length < 2 := Nat.not_lt.mpr h2
    simp [injectSingle, this]
  · intro h2
    simp [injectSingle, h2]
  · exact hlen _
  · intro h2 h3
    have hnot : ¬ q.length < 2 := Nat.not_lt.mpr h2
    have htk : (q.take 2).length = 2 := by
      rw [List.length_take]
      omega
    have h1 : injectSingle q sp cap =
        (q.take 2 ++ sp :: q.drop 2).take cap := by
      simp [injectSingle, hnot]
    rw [h1, List.getElem?_take_of_lt (by omega : (2 : Nat) < cap),
        List.getElem?_append_right (le_of_eq htk), htk]
    simp
  · intro P collected reposted blocked start_ts end_ts max_per_author single
    unfold buildFinalQueue
    have hlim : (enforceAuthorCap
        (sortByTsDesc P
          ((aggregate P collected reposted blocked start_ts end_ts).map
            Prod.snd)) max_per_author (cap - 1)).length ≤ cap - 1 :=
      capGo_length_le _ _ _ _ _ (Nat.zero_le _)
    cases hv : validateSingle single blocked with
    | none =>
      simp only
      omega
    | some sp' =>
      simp only
      split
      · exact hlen _
      · omega

/-- Closed instance of C2: injecting into a 2-item organic queue with
`total_cap = 5` puts the pinned post at index 2. -/
theorem single_injected_at_two_witness :
    injectSingle [postA, postB] postEpoch 5 =
      ([postA, postB].take 2 ++ postEpoch :: [postA, postB].drop 2).take 5 ∧
    (injectSingle [postA, postB] postEpoch 5)[2]? = some postEpoch :=
  ⟨(single_injected_at_two [postA, postB] postEpoch 5).1 (by decide),
   (single_injected_at_two [postA, postB] postEpoch 5).2.2.2.1
     (by decide) (by decide)⟩

/-- C3 (amended): for every author with a NON-EMPTY identifier, the
number of the author's items kept by the per-author capping loop — and
hence the number of non-pinned items by that author in the final queue
when no pinned item is injected — never exceeds `per_author_cap`.  (The
restriction to non-empty identifiers is forced by the counterexample:
items whose author did resolves to `""` are never counted.) -/
theorem per_author_cap_nonempty (a : String) (ha : a ≠ "")
    (candidates : List Post) (max_per_author take_limit : Nat)
    (P : String → Option Int) (collected : List (Post × Option Ctx))
    (reposted blocked : List String) (start_ts end_ts : Int)
    (max_total : Nat) :
    (enforceAuthorCap candidates max_per_author take_limit).countP
        (fun p => decide (get_author_did p = a)) ≤ max_per_author ∧
    (buildFinalQueue P collected reposted blocked start_ts end_ts
        max_total max_per_author none).countP
        (fun p => decide (get_author_did p = a)) ≤ max_per_author := by
  constructor
  · exact capGo_countP_le a ha _ _ _ _ _ (by simp) (by simp)
  · show (enforceAuthorCap _ _ _).countP _ ≤ max_per_author
    exact capGo_countP_le a ha _ _ _ _ _ (by simp) (by simp)

/-- Closed instance of C3 (amended) for the author `did:plc:a`. -/
theorem per_author_cap_nonempty_witness :
    (enforceAuthorCap [postA, postB] 3 10).countP
      (fun p => decide (get_author_did p = "did:plc:a")) ≤ 3 :=
  (per_author_cap_nonempty "did:plc:a" (by decide) [postA, postB] 3 10
    tsOracle [] [] [] 0 0 5).1

/-- C3 counterexample: with `per_author_cap = 1`, two eligible candidates
whose author identifier resolves to `""` both reach the final queue, so
"for every author, the number of non-pinned items authored by that author
never exceeds per_author_cap" fails for the empty author identifier. -/
theorem per_author_cap_empty_author_cex :
    1 < (buildFinalQueue tsOracle [(postN1, none), (postN2, none)]
        [] [] 0 100 10 1 none).countP
        (fun p => decide (get_author_did p = "")) := by
  decide

/-- C7 (amended): running the Aggregator a second time on the same raw
collected input, with the processed set extended by the identifiers the
first run produced (as the Execution Loop does on success), yields an
empty Candidate Set. -/
theorem aggregator_second_run_empty (P : String → Option Int)
    (collected : List (Post × Option Ctx)) (reposted blocked : List String)
    (start_ts end_ts : Int) :
    aggregate P collected
      (reposted ++
        (aggregate P collected reposted blocked start_ts end_ts).map
          Prod.fst)
      blocked start_ts end_ts = [] := by
  apply aggGo_all_processed
  intro p ctx hmem helig
  by_cases hr : get_uri p ∈ reposted
  · exact List.mem_append_left _ hr
  · exact List.mem_append_right _
      (aggGo_mem_keys P reposted blocked start_ts end_ts collected
        [] p ctx hmem helig hr)

/-- C7 counterexample: the Aggregator is a pure function, so a second run
on the same raw input and the SAME `processed_identifiers` set returns
the same Candidate Set as the first run — here a non-empty one — not the
empty set the frozen claim promises. -/
theorem aggregator_same_input_cex :
    aggregate tsOracle [(postA, none)] [] [] 0 100 ≠ [] := by
  decide

/-- Evaluation of `embed_is_media_only` on a post with a present embed
(the if-chain of src/repost.py:273-313 with the embed fields exposed). -/
theorem embed_is_media_only_some (post : Post) (e : Embed)
    (he : post.embed = some e) :
    embed_is_media_only post =
      (if strContains e.etype "app.bsky.embed.images" then
        decide (0 < e.images.length)
      else if strContains e.etype "app.bsky.embed.video" then true
      else if strContains e.etype "app.bsky.embed.external" then false
      else if strContains e.etype "app.bsky.embed.record" &&
              !strContains e.etype "recordWithMedia" then false
      else if strContains e.etype "app.bsky.embed.recordWithMedia" then
        (if strContains e.mediaType "app.bsky.embed.images" then
          decide (0 < e.mediaImages.length)
        else if strContains e.mediaType "app.bsky.embed.video" then true
        else false)
      else false) := by
  simp only [embed_is_media_only, he]

/-- C5: for canonically `$type`d embeds, the media-only rule passes an
item exactly when its embed is a non-empty image-set, a video, or a
quote-with-media whose inner media part is a non-empty image-set or a
video; an absent embed is always rejected, and an external-link embed is
rejected whatever the rest of the post looks like. -/
theorem media_only_rule (post : Post) :
    (post.embed = none → embed_is_media_only post = false) ∧
    (∀ e, post.embed = some e → e.etype = viewType EmbedKind.external →
      embed_is_media_only post = false) ∧
    (∀ e, post.embed = some e → canonicalEmbed e →
      (embed_is_media_only post = true ↔ mediaOnlySpec e)) := by
  refine ⟨?_, ?_, ?_⟩
  · intro h
    simp [embed_is_media_only, h]
  · intro e he ht
    have h1 : strContains "app.bsky.embed.external#view"
        "app.bsky.embed.images" = false := by decide
    have h2 : strContains "app.bsky.embed.external#view"
        "app.bsky.embed.video" = false := by decide
    have h3 : strContains "app.bsky.embed.external#view"
        "app.bsky.embed.external" = true := by decide
    rw [embed_is_media_only_some post e he, ht]
    simp [h1, h2, h3, viewType]
  · intro e he hcanon
    obtain ⟨⟨k, hk⟩, hm⟩ := hcanon
    rw [embed_is_media_only_some post e he]
    cases k with
    | images =>
      have h1 : strContains "app.bsky.embed.images#view"
          "app.bsky.embed.images" = true := by decide
      rw [hk]
      simp [h1, mediaOnlySpec, hk, viewType, List.length_pos_iff_ne_nil]
    | video =>
      have h1 : strContains "app.bsky.embed.video#view"
          "app.bsky.embed.images" = false := by decide
      have h2 : strContains "app.bsky.embed.video#view"
          "app.bsky.embed.video" = true := by decide
      rw [hk]
      simp [h1, h2, mediaOnlySpec, hk, viewType]
    | external =>
      have h1 : strContains "app.bsky.embed.external#view"
          "app.bsky.embed.images" = false := by decide
      have h2 : strContains "app.bsky.embed.external#view"
          "app.bsky.embed.video" = false := by decide
      have h3 : strContains "app.bsky.embed.external#view"
          "app.bsky.embed.external" = true := by decide
      rw [hk]
      simp [h1, h2, h3, mediaOnlySpec, hk, viewType]
    | record =>
      have h1 : strContains "app.bsky.embed.record#view"
          "app.bsky.embed.images" = false := by decide
      have h2 : strContains "app.bsky.embed.record#view"
          "app.bsky.embed.video" = false := by decide
      have h3 : strContains "app.bsky.embed.record#view"
          "app.bsky.embed.external" = false := by decide
      have h4 : strContains "app.bsky.embed.record#view"
          "app.bsky.embed.record" = true := by decide
      have h5 : strContains "app.bsky.embed.record#view"
          "recordWithMedia" = false := by decide
      rw [hk]
      simp [h1, h2, h3, h4, h5, mediaOnlySpec, hk, viewType]
    | recordWithMedia =>
      have h1 : strContains "app.bsky.embed.recordWithMedia#view"
          "app.bsky.embed.images" = false := by decide
      have h2 : strContains "app.bsky.embed.recordWithMedia#view"
          "app.bsky.embed.video" = false := by decide
      have h3 : strContains "app.bsky.embed.recordWithMedia#view"
          "app.bsky.embed.external" = false := by decide
      have h4 : strContains "app.bsky.embed.recordWithMedia#view"
          "app.bsky.embed.record" = true := by decide
      have h5 : strContains "app.bsky.embed.recordWithMedia#view"
          "recordWithMedia" = true := by decide
      have h6 : strContains "app.bsky.embed.recordWithMedia#view"
          "app.bsky.embed.recordWithMedia" = true := by decide
      rw [hk]
      rcases hm with hm0 | ⟨mk, hmk⟩
      · have m1 : strContains "" "app.bsky.embed.images" = false := by decide
        have m2 : strContains "" "app.bsky.embed.video" = false := by decide
        rw [hm0]
        simp [h1, h2, h3, h4, h5, h6, m1, m2, mediaOnlySpec, hk, hm0, viewType]
      · cases mk with
        | images =>
          have m1 : strContains "app.bsky.embed.images#view"
              "app.bsky.embed.images" = true := by decide
          rw [hmk]
          simp [h1, h2, h3, h4, h5, h6, m1, mediaOnlySpec, hk, hmk, viewType,
            List.length_pos_iff_ne_nil]
        | video =>
          have m1 : strContains "app.bsky.embed.video#view"
              "app.bsky.embed.images" = false := by decide
          have m2 : strContains "app.bsky.embed.video#view"
              "app.bsky.embed.video" = true := by decide
          rw [hmk]
          simp [h1, h2, h3, h4, h5, h6, m1, m2, mediaOnlySpec, hk, hmk, viewType]
        | external =>
          have m1 : strContains "app.bsky.embed.external#view"
              "app.bsky.embed.images" = false := by decide
          have m2 : strContains "app.bsky.embed.external#view"
              "app.bsky.embed.video" = false := by decide
          rw [hmk]
          simp [h1, h2, h3, h4, h5, h6, m1, m2, mediaOnlySpec, hk, hmk, viewType]
        | record =>
          have m1 : strContains "app.bsky.embed.record#view"
              "app.bsky.embed.images" = false := by decide
          have m2 : strContains "app.bsky.embed.record#view"
              "app.bsky.embed.video" = false := by decide
          rw [hmk]
          simp [h1, h2, h3, h4, h5, h6, m1, m2, mediaOnlySpec, hk, hmk, viewType]
        | recordWithMedia =>
          have m1 : strContains "app.bsky.embed.recordWithMedia#view"
              "app.bsky.embed.images" = false := by decide
          have m2 : strContains "app.bsky.embed.recordWithMedia#view"
              "app.bsky.embed.video" = false := by decide
          rw [hmk]
          simp [h1, h2, h3, h4, h5, h6, m1, m2, mediaOnlySpec, hk, hmk, viewType]

/-- Closed instance of C5: a canonically typed non-empty image-set embed
passes the media-only rule. -/
theorem media_only_rule_witness :
    embed_is_media_only postA = true :=
  ((media_only_rule postA).2.2 imagesEmbed rfl
      ⟨⟨EmbedKind.images, rfl⟩, Or.inl rfl⟩).mpr
    (Or.inl ⟨rfl, by decide⟩)

/-- C6: the required-tag rule applies only when a provenance context is
present — with no context the filter outcome is independent of the text
body and the tag facets (the rule is inert) — and for a context-bearing,
non-reshare item the filter passes exactly when the item is not a reply,
carries the required tag (as a whole token of the text, or as a tag facet
equal to `milf` case-insensitively), and has a media-only embed. -/
theorem required_tag_rule :
    (∀ uri cid did handle iA rA cA rep t₁ t₂ f₁ f₂ em,
      passes_content_filters
          (Post.mk uri cid did handle iA rA cA rep t₁ f₁ em) none =
        passes_content_filters
          (Post.mk uri cid did handle iA rA cA rep t₂ f₂ em) none) ∧
    (∀ post ctx, is_repost_reason ctx = false →
      (passes_content_filters post (some ctx) = true ↔
        (is_reply post = false ∧ has_required_milf_tag post = true ∧
          embed_is_media_only post = true))) := by
  constructor
  · intro uri cid did handle iA rA cA rep t₁ t₂ f₁ f₂ em
    rfl
  · intro post ctx hrep
    simp only [passes_content_filters, hrep]
    cases hr : is_reply post with
    | true => simp [hr]
    | false =>
      cases htag : has_required_milf_tag post with
      | false => simp [hr, htag]
      | true =>
        cases hmedia : embed_is_media_only post with
        | false => simp [hr, htag, hmedia]
        | true => simp [hr, htag, hmedia]

/-- Closed instance of C6: a feed-origin (context-bearing) media post
whose text carries `#MILF` passes the content filters. -/
theorem required_tag_rule_witness :
    passes_content_filters postTagged (some ctxPlain) = true :=
  (required_tag_rule.2 postTagged ctxPlain rfl).mpr
    ⟨rfl, by decide, by decide⟩
